import Mathlib

/-!
Verification of the host/device array-offload execution model implied by the
numba+CUDA tutorial notebook (`numba_cuda.py`), together with the concrete
scalar and generalized elementwise operations the notebook defines
(`gpu_sqrt`, `gpu_arctan2`, `gpu_polar`, `gpu_average`, `gpu_average_2`,
`gpu_sum`, and the normalize/weigh/activate pipeline).

Elements are modelled as real numbers; machine `float32` rounding is out of
scope (the spec excludes numerical kernel correctness, keeping only the
orchestration contract and exact elementwise semantics).
-/

namespace NumbaCuda

/-- Memory space where a buffer resides: host (main system) or device. -/
inductive Loc where
  | host
  | device
deriving DecidableEq, Repr

/-- Element type tag of a buffer (the notebook only uses 32- and 64-bit floats). -/
inductive DType where
  | f32
  | f64
deriving DecidableEq, Repr

/-- Error kinds of the orchestration core (spec §7). -/
inductive Err where
  | OutOfMemory
  | TransferError
  | ShapeMismatch
  | DTypeMismatch
  | NonContiguousInput
  | UseAfterRelease
deriving DecidableEq, Repr

/-- Observable, costed operations issued to the device (spec §4.1: every
transfer is a counted, instrumentable event). -/
inductive Event where
  | transferH2D
  | transferD2H
  | kernelLaunch
deriving DecidableEq, Repr

/-- Modelled from the spec: `DeviceBuffer` — a handle to a fixed-shape,
fixed-dtype block of memory resident on host or device, with explicit
lifetime (`valid` is false once released) and a contiguity flag for views.
The notebook relies on the external runtime's device arrays for this; no
dedicated implementation exists in the source. 1-D data is the element
list; a 2-D buffer is a list of rows at the gufunc level. -/
structure Buf (α : Type) where
  loc : Loc
  dtype : DType
  contiguous : Bool
  valid : Bool
  data : List α
deriving DecidableEq

/-- A scalar ("ufunc") operation of one input, with declared dtypes, as in
`@vectorize(['float32(float32)'], target='cuda')`. -/
structure UfuncOp (α : Type) where
  inDtype : DType
  outDtype : DType
  f : α → α

/-- A scalar ("ufunc") operation of two inputs, as in
`@vectorize(['float32(float32, float32)'], target='cuda')`. -/
structure UfuncOp2 (α : Type) where
  inDtype1 : DType
  inDtype2 : DType
  outDtype : DType
  f : α → α → α

/-- Modelled from the spec: `apply` for a one-input scalar op.  Validation
(dtype, then contiguity) happens before any device work, so a failing
application emits no events; on success one kernel launch is issued and the
output element at each index is the op applied to the input element there.
The notebook delegates this contract to the external runtime. -/
def applyUfunc1 {α : Type} (op : UfuncOp α) (b : Buf α) : List Event × Except Err (Buf α) :=
  if b.dtype ≠ op.inDtype then ([], .error .DTypeMismatch)
  else if ¬ b.contiguous then ([], .error .NonContiguousInput)
  else ([.kernelLaunch],
    .ok { loc := .device, dtype := op.outDtype, contiguous := true,
          valid := true, data := b.data.map op.f })

/-- Modelled from the spec: `apply` for a two-input scalar op; strict shape
equality (spec §9 rejects implicit broadcasting), exact dtype match, and
contiguity of both inputs are validated before any device work. -/
def applyUfunc2 {α : Type} (op : UfuncOp2 α) (b1 b2 : Buf α) : List Event × Except Err (Buf α) :=
  if b1.data.length ≠ b2.data.length then ([], .error .ShapeMismatch)
  else if b1.dtype ≠ op.inDtype1 ∨ b2.dtype ≠ op.inDtype2 then ([], .error .DTypeMismatch)
  else if ¬ b1.contiguous ∨ ¬ b2.contiguous then ([], .error .NonContiguousInput)
  else ([.kernelLaunch],
    .ok { loc := .device, dtype := op.outDtype, contiguous := true,
          valid := true, data := List.zipWith op.f b1.data b2.data })

/-- `np.ascontiguousarray`: materializes a (possibly strided) view into a
fresh contiguous buffer holding the same element sequence. -/
def ascontiguousarray {α : Type} (b : Buf α) : Buf α :=
  { b with contiguous := true }

/-- `math.atan2` (four-quadrant arctangent), as used by `gpu_arctan2` and
`gpu_polar`; signed zeros are out of scope for the real-valued model. -/
noncomputable def atan2 (y x : ℝ) : ℝ :=
  if 0 < x then Real.arctan (y / x)
  else if x < 0 ∧ 0 ≤ y then Real.arctan (y / x) + Real.pi
  else if x < 0 ∧ y < 0 then Real.arctan (y / x) - Real.pi
  else if x = 0 ∧ 0 < y then Real.pi / 2
  else if x = 0 ∧ y < 0 then -(Real.pi / 2)
  else 0

/-- `gpu_sqrt` from the source: scalar body `math.sqrt(x)` with declared
signature `float32(float32)`. -/
noncomputable def gpu_sqrt : UfuncOp ℝ :=
  { inDtype := .f32, outDtype := .f32, f := Real.sqrt }

/-- `gpu_arctan2` from the source: scalar body `math.atan2(y, x)` with
declared signature `float32(float32, float32)`. -/
noncomputable def gpu_arctan2 : UfuncOp2 ℝ :=
  { inDtype1 := .f32, inDtype2 := .f32, outDtype := .f32, f := atan2 }

/-- `gpu_normalize` from the source: `x / 255`. -/
noncomputable def gpu_normalize : UfuncOp ℝ :=
  { inDtype := .f32, outDtype := .f32, f := fun x => x / 255 }

/-- `gpu_weigh` from the source: `x * w`. -/
noncomputable def gpu_weigh : UfuncOp2 ℝ :=
  { inDtype1 := .f32, inDtype2 := .f32, outDtype := .f32, f := fun x w => x * w }

/-- `gpu_activate` from the source:
`(math.exp(x) - math.exp(-x)) / (math.exp(x) + math.exp(-x))`. -/
noncomputable def gpu_activate : UfuncOp ℝ :=
  { inDtype := .f32, outDtype := .f32,
    f := fun x => (Real.exp x - Real.exp (-x)) / (Real.exp x + Real.exp (-x)) }

/-- Generalized ("gufunc") application with shape-signature `(n)->()`:
the op is applied independently per leading-index slice (row), producing
one scalar per row, as in `@guvectorize(..., '(n)->()', target='cuda')`. -/
def guApplyReduce {α β : Type} (g : List α → β) (rows : List (List α)) : List β :=
  rows.map g

/-- Generalized ("gufunc") application with shape-signature `(i)->(i)`:
the op is applied independently per leading-index slice, producing one
sub-array per row, as in `@guvectorize(..., '(i)->(i)', target='cuda')`. -/
def guApplyMap {α : Type} (g : List α → List α) (rows : List (List α)) : List (List α) :=
  rows.map g

/-- `gpu_polar` from the source, per sub-array: `x = vec[0]; y = vec[1];
out[0] = math.sqrt(x**2 + y**2); out[1] = math.atan2(y, x)`, for the size-2
sub-arrays the notebook feeds it (its points array has last dimension 2). -/
noncomputable def gpu_polar (vec : List ℝ) : List ℝ :=
  let x := vec.getD 0 0
  let y := vec.getD 1 0
  [Real.sqrt (x ^ 2 + y ^ 2), atan2 y x]

/-- `gpu_average` from the source, per row: `acc = 0; for val in array:
acc += val; out[0] = acc / len(array)`. -/
noncomputable def gpu_average (array : List ℝ) : ℝ :=
  (array.foldl (fun acc val => acc + val) 0) / (array.length : ℝ)

/-- `add` device function from the source: `acc = 0; for val in array:
acc += val; return acc`. -/
noncomputable def add (array : List ℝ) : ℝ :=
  array.foldl (fun acc val => acc + val) 0

/-- `gpu_average_2` from the source: `out[0] = add(array) / len(array)`. -/
noncomputable def gpu_average_2 (array : List ℝ) : ℝ :=
  add array / (array.length : ℝ)

/-- `gpu_sum` from the source: `out[0] = add(array)`. -/
noncomputable def gpu_sum (array : List ℝ) : ℝ :=
  add array

/-- `normalize` from the source (CPU, numpy): `grayscales / 255`,
elementwise division of the array by the scalar 255. -/
noncomputable def normalize (grayscales : List ℝ) : List ℝ :=
  grayscales.map (fun g => g / 255)

/-- `weigh` from the source (CPU, numpy): `values * weights`,
elementwise product of two same-length arrays. -/
noncomputable def weigh (values weights : List ℝ) : List ℝ :=
  List.zipWith (fun v w => v * w) values weights

/-- `activate` from the source (CPU, numpy):
`(np.exp(values) - np.exp(-values)) / (np.exp(values) + np.exp(-values))`,
written as the numpy elementwise composition it is. -/
noncomputable def activate (values : List ℝ) : List ℝ :=
  List.zipWith (fun a b => a / b)
    (List.zipWith (fun a b => a - b)
      (values.map Real.exp) ((values.map (fun v => -v)).map Real.exp))
    (List.zipWith (fun a b => a + b)
      (values.map Real.exp) ((values.map (fun v => -v)).map Real.exp))

/-- Modelled from the spec: a store of buffer handles for the
`TransferGateway` (spec §4.1); handles are indices into the store.  The
notebook uses the external runtime's handles (`cuda.to_device`,
`copy_to_host`) and has no implementation of its own. -/
abbrev Store (α : Type) : Type := List (Buf α)

/-- Modelled from the spec: `transfer(buffer, target_location)` — copies
the data of a valid handle to the target location, returning the extended
store and the fresh handle; fails with `TransferError` when the source
handle is missing or released.  The source handle's buffer is not
modified (non-destructive copy). -/
def transfer {α : Type} (s : Store α) (h : Nat) (target : Loc) :
    Except Err (Store α × Nat) :=
  match s.get? h with
  | none => .error .TransferError
  | some b =>
    if b.valid then .ok (s ++ [{ b with loc := target }], s.length)
    else .error .TransferError

/-- Modelled from the spec: `release(buffer)` — marks the handle invalid;
the memory is freed and later use of the handle must fail. -/
def release {α : Type} (s : Store α) (h : Nat) : Store α :=
  match s.get? h with
  | none => s
  | some b => s.set h { b with valid := false }

/-- A pipeline step: one elementwise application whose inputs are slots of
the working environment (staged inputs first, then prior step outputs). -/
inductive Step (α : Type) where
  | unary (op : UfuncOp α) (src : Nat)
  | binary (op : UfuncOp2 α) (src1 src2 : Nat)

/-- Modelled from the spec: a `Pipeline` — an ordered sequence of
elementwise steps, with the environment slots of the final buffers to be
retrieved to the host.  Intermediate outputs are always directed to
device-resident placement (spec §4.3 step 3). -/
structure Pipeline (α : Type) where
  steps : List (Step α)
  retrieve : List Nat

/-- Executes one pipeline step against the working environment; a dangling
slot reference fails like use of an invalid handle. -/
def execStep {α : Type} (env : List (Buf α)) : Step α → List Event × Except Err (Buf α)
  | .unary op src =>
    match env.get? src with
    | some b => applyUfunc1 op b
    | none => ([], .error .UseAfterRelease)
  | .binary op src1 src2 =>
    match env.get? src1, env.get? src2 with
    | some b1, some b2 => applyUfunc2 op b1 b2
    | _, _ => ([], .error .UseAfterRelease)

/-- Modelled from the spec: pipeline step loop (spec §4.3 step 3) — each
step's output is appended to the device-resident environment; on the first
failing step the loop aborts, reporting the failing step index and error
kind together with the environment at the abort point. -/
def runSteps {α : Type} : List (Step α) → List (Buf α) → Nat →
    List Event × List (Buf α) × Except (Nat × Err) Unit
  | [], env, _ => ([], env, .ok ())
  | st :: rest, env, idx =>
    match execStep env st with
    | (es, .ok out) =>
      let (es2, env2, r) := runSteps rest (env ++ [out]) (idx + 1)
      (es ++ es2, env2, r)
    | (es, .error e) => (es, env, .error (idx, e))

/-- Modelled from the spec: staging (spec §4.3 step 2) — every
host-resident input is transferred to the device exactly once (one
`transferH2D` event each); already device-resident inputs are used in
place (idempotent staging, no event). -/
def stageInputs {α : Type} (inputs : List (Buf α)) : List Event × List (Buf α) :=
  (inputs.flatMap (fun b => match b.loc with
      | .host => [Event.transferH2D]
      | .device => []),
   inputs.map (fun b => match b.loc with
      | .host => { b with loc := Loc.device }
      | .device => b))

/-- Whether working-environment slot `j` holds a buffer the pipeline
allocated internally: a staged device copy of a host input, or a step
output — as opposed to a caller-supplied device-resident buffer used in
place. -/
def pipelineOwned {α : Type} (inputs : List (Buf α)) (j : Nat) : Bool :=
  match inputs.get? j with
  | some b => match b.loc with
    | .host => true
    | .device => false
  | none => true

/-- Marks every pipeline-owned slot at position `j` and beyond released,
leaving caller-supplied buffers untouched. -/
def releaseFrom {α : Type} (inputs : List (Buf α)) (j : Nat) :
    List (Buf α) → List (Buf α)
  | [] => []
  | b :: rest =>
    (if pipelineOwned inputs j then { b with valid := false } else b) ::
      releaseFrom inputs (j + 1) rest

/-- Marks every pipeline-owned slot of the environment released, leaving
caller-supplied buffers untouched (spec §4.3: abort cleanup and
end-of-pipeline release of intermediates). -/
def releaseInternals {α : Type} (inputs env : List (Buf α)) : List (Buf α) :=
  releaseFrom inputs 0 env

/-- Outcome of a pipeline run: the instrumented event trace, the result
(retrieved outputs, or failing step index and error kind), the
caller-supplied buffers after the run, and the final state of the working
environment. -/
structure PipeOutcome (α : Type) where
  trace : List Event
  result : Except (Nat × Err) (List (Buf α))
  callerBufs : List (Buf α)
  internalBufs : List (Buf α)

/-- Modelled from the spec: full pipeline execution (spec §4.3) — stage
host inputs once, run the steps with device-resident placement for every
intermediate, then transfer each declared host-retrieval output once and
release all internally allocated buffers; on failure, abort, release all
internally allocated buffers and report the failing step index and error
kind, leaving caller-supplied buffers untouched. -/
def runPipeline {α : Type} (p : Pipeline α) (inputs : List (Buf α)) : PipeOutcome α :=
  let staged := stageInputs inputs
  let stepped := runSteps p.steps staged.2 0
  match stepped.2.2 with
  | .ok _ =>
    let outs := p.retrieve.filterMap
      (fun i => (stepped.2.1.get? i).map (fun b => { b with loc := Loc.host }))
    { trace := staged.1 ++ stepped.1 ++ outs.map (fun _ => Event.transferD2H)
      result := .ok outs
      callerBufs := inputs
      internalBufs := releaseInternals inputs stepped.2.1 }
  | .error ie =>
    { trace := staged.1 ++ stepped.1
      result := .error ie
      callerBufs := inputs
      internalBufs := releaseInternals inputs stepped.2.1 }

/-- Number of host/device transfer events in a trace (spec §4.1: transfers
are counted and instrumentable). -/
def transferCount (es : List Event) : Nat :=
  es.countP (fun e => match e with
    | .transferH2D => true
    | .transferD2H => true
    | .kernelLaunch => false)

/-- Number of host-resident buffers among the inputs. -/
def hostInputCount {α : Type} (inputs : List (Buf α)) : Nat :=
  inputs.countP (fun b => match b.loc with
    | .host => true
    | .device => false)

/-- A host-resident contiguous float32 array, as numpy creates them. -/
def hostArr (xs : List ℝ) : Buf ℝ :=
  { loc := .host, dtype := .f32, contiguous := true, valid := true, data := xs }

/-- The naive chained GPU pipeline from the source:
`gpu_activate(gpu_weigh(gpu_normalize(greyscales), weights))`, each call a
separate ufunc application on host arrays. -/
noncomputable def naiveGpuPipeline (gs ws : List ℝ) : Except Err (List ℝ) :=
  match (applyUfunc1 gpu_normalize (hostArr gs)).2 with
  | .error e => .error e
  | .ok nb =>
    match (applyUfunc2 gpu_weigh nb (hostArr ws)).2 with
    | .error e => .error e
    | .ok wb =>
      match (applyUfunc1 gpu_activate wb).2 with
      | .error e => .error e
      | .ok ab => .ok ab.data

/-- The transfer-minimized pipeline from the source: stage `greyscales`
and `weights`, chain normalize → weigh → activate with device-resident
intermediates (`out=` device arrays), retrieve only the activated result
(`copy_to_host`).  Slots: 0 = greyscales, 1 = weights, 2 = normalized,
3 = weighted, 4 = activated. -/
noncomputable def deviceChain : Pipeline ℝ :=
  { steps := [.unary gpu_normalize 0, .binary gpu_weigh 2 1, .unary gpu_activate 3]
    retrieve := [4] }

/-- The data retrieved to the host by the transfer-minimized pipeline. -/
noncomputable def minimizedResult (gs ws : List ℝ) : Except (Nat × Err) (List (List ℝ)) :=
  ((runPipeline deviceChain [hostArr gs, hostArr ws]).result).map (List.map Buf.data)

/-! ### Helper lemmas -/

theorem foldl_add_eq (l : List ℝ) (a : ℝ) :
    l.foldl (fun acc val => acc + val) a = a + l.sum := by
  induction l generalizing a with
  | nil => simp
  | cons x xs ih => simp [List.foldl_cons, ih, List.sum_cons]; ring

theorem gpu_average_eq_sum_div (row : List ℝ) :
    gpu_average row = row.sum / (row.length : ℝ) := by
  simp [gpu_average, foldl_add_eq]

/-! ### C3: scalar ufunc application is elementwise and shape-preserving -/

/-- C3: applying a scalar (ufunc) op to a buffer of shape (N,) yields a
buffer of shape (N,) whose element at each index is the op applied to the
input element there; in particular `gpu_sqrt` on [4, 9, 16] yields
[2, 3, 4]. -/
theorem gpu_sqrt_elementwise :
    (∀ b : Buf ℝ, b.dtype = DType.f32 → b.contiguous = true →
      ∃ out, (applyUfunc1 gpu_sqrt b).2 = Except.ok out ∧
        out.data.length = b.data.length ∧
        (∀ i x, b.data.get? i = some x → out.data.get? i = some (Real.sqrt x))) ∧
    (applyUfunc1 gpu_sqrt (hostArr [4, 9, 16])).2 =
      Except.ok { loc := Loc.device, dtype := DType.f32, contiguous := true,
                  valid := true, data := [2, 3, 4] } := by
  constructor
  · intro b hd hc
    refine ⟨{ loc := Loc.device, dtype := DType.f32, contiguous := true,
              valid := true, data := b.data.map Real.sqrt }, ?_, by simp, ?_⟩
    · simp [applyUfunc1, hd, hc, gpu_sqrt]
    · intro i x hx
      rw [List.get?_eq_getElem?] at hx ⊢
      simp [List.getElem?_map, hx, gpu_sqrt]
  · have h4 : Real.sqrt 4 = 2 := by
      rw [show (4 : ℝ) = 2 ^ 2 by norm_num, Real.sqrt_sq (by norm_num : (0:ℝ) ≤ 2)]
    have h9 : Real.sqrt 9 = 3 := by
      rw [show (9 : ℝ) = 3 ^ 2 by norm_num, Real.sqrt_sq (by norm_num : (0:ℝ) ≤ 3)]
    have h16 : Real.sqrt 16 = 4 := by
      rw [show (16 : ℝ) = 4 ^ 2 by norm_num, Real.sqrt_sq (by norm_num : (0:ℝ) ≤ 4)]
    simp [applyUfunc1, hostArr, gpu_sqrt, h4, h9, h16]

/-- Witness for C3: the general part of the theorem evaluated on the
concrete buffer [4, 9, 16]. -/
theorem gpu_sqrt_elementwise_witness :
    ∃ out, (applyUfunc1 gpu_sqrt (hostArr [4, 9, 16])).2 = Except.ok out ∧
      out.data.length = (hostArr [4, 9, 16]).data.length ∧
      (∀ i x, (hostArr [4, 9, 16]).data.get? i = some x →
        out.data.get? i = some (Real.sqrt x)) :=
  gpu_sqrt_elementwise.1 (hostArr [4, 9, 16]) rfl rfl

/-! ### C4: gufunc (n)->() reduction computes per-row means -/

/-- C4: the gufunc `gpu_average` with shape-signature (n)->() maps a 2-D
input to a 1-D output with one element per row, each the row's mean; in
particular [[1,2,3],[4,5,6]] yields [2, 5]. -/
theorem gpu_average_rows :
    (∀ a : List (List ℝ), (guApplyReduce gpu_average a).length = a.length ∧
      (∀ r row, a.get? r = some row →
        (guApplyReduce gpu_average a).get? r = some (row.sum / (row.length : ℝ)))) ∧
    guApplyReduce gpu_average [[1, 2, 3], [4, 5, 6]] = [2, 5] := by
  constructor
  · intro a
    refine ⟨by simp [guApplyReduce], ?_⟩
    intro r row hr
    rw [List.get?_eq_getElem?] at hr ⊢
    simp [guApplyReduce, List.getElem?_map, hr, gpu_average_eq_sum_div]
  · simp [guApplyReduce, gpu_average]
    norm_num

/-- Witness for C4: the general part of the theorem evaluated on the
concrete input [[1,2,3],[4,5,6]] at row 0. -/
theorem gpu_average_rows_witness :
    (guApplyReduce gpu_average [[1, 2, 3], [4, 5, 6]]).get? 0 =
      some (([1, 2, 3] : List ℝ).sum / (([1, 2, 3] : List ℝ).length : ℝ)) :=
  (gpu_average_rows.1 [[1, 2, 3], [4, 5, 6]]).2 0 [1, 2, 3] rfl

/-! ### C5: gufunc (i)->(i) cartesian-to-polar conversion -/

/-- C5: the gufunc `gpu_polar` with shape-signature (i)->(i) maps each
size-2 sub-array [x, y] to [sqrt(x^2 + y^2), atan2(y, x)]; in particular
[3, 4] yields [5, atan2 4 3]. -/
theorem gpu_polar_spec :
    (∀ (points : List (List ℝ)) (r : Nat) (x y : ℝ), points.get? r = some [x, y] →
      (guApplyMap gpu_polar points).get? r =
        some [Real.sqrt (x ^ 2 + y ^ 2), atan2 y x]) ∧
    guApplyMap gpu_polar [[3, 4]] = [[5, atan2 4 3]] := by
  constructor
  · intro points r x y hr
    rw [List.get?_eq_getElem?] at hr ⊢
    simp [guApplyMap, List.getElem?_map, hr, gpu_polar]
  · have h25 : (3 : ℝ) ^ 2 + (4 : ℝ) ^ 2 = 5 ^ 2 := by norm_num
    simp [guApplyMap, gpu_polar, h25, Real.sqrt_sq (by norm_num : (0:ℝ) ≤ 5)]

/-- Witness for C5: the general part of the theorem evaluated on the
concrete points array [[3, 4]] at row 0. -/
theorem gpu_polar_spec_witness :
    (guApplyMap gpu_polar [[3, 4]]).get? 0 =
      some [Real.sqrt ((3 : ℝ) ^ 2 + (4 : ℝ) ^ 2), atan2 4 3] :=
  gpu_polar_spec.1 [[3, 4]] 0 3 4 rfl

/-! ### C10: device-function refactor preserves results -/

/-- C10: the refactored gufunc `gpu_average_2` (which delegates row
summation to the device function `add`) returns exactly the same per-row
output as the monolithic `gpu_average`, and each of its elements equals
the corresponding `gpu_sum` element divided by the row length. -/
theorem gpu_average_2_refines :
    (∀ a : List (List ℝ),
      guApplyReduce gpu_average_2 a = guApplyReduce gpu_average a) ∧
    (∀ (a : List (List ℝ)) (r : Nat) (row : List ℝ), a.get? r = some row →
      (guApplyReduce gpu_average_2 a).get? r =
        some (gpu_sum row / (row.length : ℝ)) ∧
      (guApplyReduce gpu_sum a).get? r = some (gpu_sum row)) := by
  constructor
  · intro a
    simp [guApplyReduce, gpu_average_2, gpu_average, add]
  · intro a r row hr
    rw [List.get?_eq_getElem?] at hr
    constructor
    · rw [List.get?_eq_getElem?]
      simp [guApplyReduce, List.getElem?_map, hr, gpu_average_2, gpu_sum]
    · rw [List.get?_eq_getElem?]
      simp [guApplyReduce, List.getElem?_map, hr]

/-- Witness for C10: the per-row part of the theorem evaluated on the
concrete input [[1,2,3],[4,5,6]] at row 1. -/
theorem gpu_average_2_refines_witness :
    (guApplyReduce gpu_average_2 [[1, 2, 3], [4, 5, 6]]).get? 1 =
      some (gpu_sum [4, 5, 6] / (([4, 5, 6] : List ℝ).length : ℝ)) ∧
    (guApplyReduce gpu_sum [[1, 2, 3], [4, 5, 6]]).get? 1 =
      some (gpu_sum [4, 5, 6]) :=
  gpu_average_2_refines.2 [[1, 2, 3], [4, 5, 6]] 1 [4, 5, 6] rfl

/-! ### C2: non-contiguous inputs are rejected, contiguous copies accepted -/

/-- C2: applying an elementwise op to a non-contiguous view fails with
`NonContiguousInput` before any device work and produces no output; after
the caller materializes the view(s) with `ascontiguousarray`, the same
application succeeds and computes from the same element data (as with
`gpu_arctan2` on the strided slices `points[:,1]`, `points[:,0]`). -/
theorem apply_noncontiguous (op : UfuncOp2 ℝ) (b1 b2 : Buf ℝ)
    (hlen : b1.data.length = b2.data.length)
    (hd1 : b1.dtype = op.inDtype1) (hd2 : b2.dtype = op.inDtype2)
    (hnc : b1.contiguous = false ∨ b2.contiguous = false) :
    applyUfunc2 op b1 b2 = ([], Except.error Err.NonContiguousInput) ∧
    (applyUfunc2 op (ascontiguousarray b1) (ascontiguousarray b2)).2 =
      Except.ok { loc := Loc.device, dtype := op.outDtype, contiguous := true,
                  valid := true, data := List.zipWith op.f b1.data b2.data } := by
  constructor
  · rcases hnc with h | h <;> simp [applyUfunc2, hlen, hd1, hd2, h]
  · simp [applyUfunc2, ascontiguousarray, hlen, hd1, hd2]

/-- Witness for C2: `gpu_arctan2` on two non-contiguous one-element slices
is rejected, and succeeds on their contiguous copies. -/
theorem apply_noncontiguous_witness :
    applyUfunc2 gpu_arctan2
      ({ loc := Loc.host, dtype := DType.f32, contiguous := false,
         valid := true, data := [1] } : Buf ℝ)
      ({ loc := Loc.host, dtype := DType.f32, contiguous := false,
         valid := true, data := [2] } : Buf ℝ) =
      ([], Except.error Err.NonContiguousInput) ∧
    (applyUfunc2 gpu_arctan2
      (ascontiguousarray
        ({ loc := Loc.host, dtype := DType.f32, contiguous := false,
           valid := true, data := [1] } : Buf ℝ))
      (ascontiguousarray
        ({ loc := Loc.host, dtype := DType.f32, contiguous := false,
           valid := true, data := [2] } : Buf ℝ))).2 =
      Except.ok { loc := Loc.device, dtype := gpu_arctan2.outDtype,
                  contiguous := true, valid := true,
                  data := List.zipWith gpu_arctan2.f [1] [2] } :=
  apply_noncontiguous gpu_arctan2 _ _ rfl rfl rfl (Or.inl rfl)

/-! ### C7: dtype mismatches fail before any device work -/

/-- C7: when a supplied buffer's dtype differs from the op's declared
input dtype, the application fails with `DTypeMismatch` and the event
trace is empty — no transfer and no kernel launch were issued, and no
converted output is produced. -/
theorem dtype_mismatch_eager :
    (∀ (op : UfuncOp ℝ) (b : Buf ℝ), b.dtype ≠ op.inDtype →
      applyUfunc1 op b = ([], Except.error Err.DTypeMismatch)) ∧
    (∀ (op : UfuncOp2 ℝ) (b1 b2 : Buf ℝ), b1.data.length = b2.data.length →
      b1.dtype ≠ op.inDtype1 ∨ b2.dtype ≠ op.inDtype2 →
      applyUfunc2 op b1 b2 = ([], Except.error Err.DTypeMismatch)) := by
  constructor
  · intro op b hd
    simp [applyUfunc1, hd]
  · intro op b1 b2 hlen hd
    simp [applyUfunc2, hlen, hd]

/-- Witness for C7: feeding a `float64` buffer to `gpu_sqrt`, whose
declared input dtype is `float32`, fails with `DTypeMismatch` and an
empty trace. -/
theorem dtype_mismatch_eager_witness :
    applyUfunc1 gpu_sqrt
      ({ loc := Loc.host, dtype := DType.f64, contiguous := true,
         valid := true, data := [1] } : Buf ℝ) =
      ([], Except.error Err.DTypeMismatch) :=
  dtype_mismatch_eager.1 gpu_sqrt _ (by simp [gpu_sqrt])

/-! ### C6: transfer is a non-destructive copy -/

/-- C6: `transfer` on a valid handle returns a fresh handle holding the
same data at the target location, and the source handle still resolves to
its original, unchanged, still-valid buffer. -/
theorem transfer_nondestructive {α : Type} (s : Store α) (h : Nat) (b : Buf α)
    (target : Loc) (hb : s.get? h = some b) (hv : b.valid = true) :
    transfer s h target = Except.ok (s ++ [{ b with loc := target }], s.length) ∧
    (s ++ [{ b with loc := target }]).get? h = some b ∧
    (s ++ [{ b with loc := target }]).get? s.length = some { b with loc := target } := by
  rw [List.get?_eq_getElem?] at hb
  have hlt : h < s.length := (List.getElem?_eq_some_iff.mp hb).1
  refine ⟨?_, ?_, ?_⟩
  · simp [transfer, hb, hv]
  · rw [List.get?_eq_getElem?, List.getElem?_append_left hlt, hb]
  · rw [List.get?_eq_getElem?, List.getElem?_concat_length]

/-- Witness for C6: transferring a one-element host buffer to the device
leaves handle 0 valid and unchanged and returns fresh handle 1. -/
theorem transfer_nondestructive_witness :
    transfer ([{ loc := Loc.host, dtype := DType.f32, contiguous := true,
                 valid := true, data := [1] }] : Store ℚ) 0 Loc.device =
      Except.ok ([{ loc := Loc.host, dtype := DType.f32, contiguous := true,
                    valid := true, data := [1] },
                  { loc := Loc.device, dtype := DType.f32, contiguous := true,
                    valid := true, data := [1] }], 1) ∧
    ([{ loc := Loc.host, dtype := DType.f32, contiguous := true,
        valid := true, data := [1] },
      { loc := Loc.device, dtype := DType.f32, contiguous := true,
        valid := true, data := [1] }] : Store ℚ).get? 0 =
      some { loc := Loc.host, dtype := DType.f32, contiguous := true,
             valid := true, data := [1] } := by
  have H := transfer_nondestructive
    ([{ loc := Loc.host, dtype := DType.f32, contiguous := true,
        valid := true, data := [1] }] : Store ℚ) 0
    ({ loc := Loc.host, dtype := DType.f32, contiguous := true,
       valid := true, data := [1] } : Buf ℚ) Loc.device rfl rfl
  exact ⟨H.1, H.2.1⟩

/-! ### Trace accounting lemmas for the pipeline -/

theorem transferCount_append (a b : List Event) :
    transferCount (a ++ b) = transferCount a + transferCount b := by
  simp [transferCount, List.countP_append]

theorem transferCount_d2h_map {β : Type} (l : List β) :
    transferCount (l.map (fun _ => Event.transferD2H)) = l.length := by
  induction l with
  | nil => rfl
  | cons x xs ih => simp [transferCount, List.countP_cons] at ih ⊢; omega

theorem execStep_transferCount {α : Type} (env : List (Buf α)) (st : Step α) :
    transferCount (execStep env st).1 = 0 := by
  cases st with
  | unary op src =>
    cases h : env[src]? with
    | none => simp [execStep, List.get?_eq_getElem?, h, transferCount]
    | some b =>
      simp only [execStep, List.get?_eq_getElem?, h]
      unfold applyUfunc1
      split_ifs <;> simp [transferCount]
  | binary op src1 src2 =>
    cases h1 : env[src1]? with
    | none => simp [execStep, List.get?_eq_getElem?, h1, transferCount]
    | some b1 =>
      cases h2 : env[src2]? with
      | none => simp [execStep, List.get?_eq_getElem?, h1, h2, transferCount]
      | some b2 =>
        simp only [execStep, List.get?_eq_getElem?, h1, h2]
        unfold applyUfunc2
        split_ifs <;> simp [transferCount]

theorem runSteps_transferCount {α : Type} (steps : List (Step α))
    (env : List (Buf α)) (idx : Nat) :
    transferCount (runSteps steps env idx).1 = 0 := by
  induction steps generalizing env idx with
  | nil => rfl
  | cons st rest ih =>
    have hst := execStep_transferCount env st
    rcases hex : execStep env st with ⟨es, r⟩
    rw [hex] at hst
    cases r with
    | ok out =>
      simp [runSteps, hex, transferCount_append, hst, ih]
    | error e =>
      simp [runSteps, hex, hst]

theorem stage_transferCount {α : Type} (inputs : List (Buf α)) :
    transferCount (stageInputs inputs).1 = hostInputCount inputs := by
  induction inputs with
  | nil => rfl
  | cons b bs ih =>
    cases hb : b.loc with
    | host =>
      simp [stageInputs, transferCount, hostInputCount, List.countP_cons, hb,
        List.countP_append] at ih ⊢
      omega
    | device =>
      simp [stageInputs, transferCount, hostInputCount, List.countP_cons, hb,
        List.countP_append] at ih ⊢
      omega

/-! ### C1: pipeline transfer-count invariant -/

/-- C1: for a pipeline of chained elementwise steps with device-resident
intermediate placement, the total number of host/device transfers equals
(number of host-resident inputs) + (number of declared host-retrieval
outputs), independent of the number of steps; in particular it is 0 with
no host inputs and no retrievals, and 2 with one of each. -/
theorem pipeline_transfer_invariant {α : Type} (p : Pipeline α)
    (inputs outs : List (Buf α))
    (hok : (runPipeline p inputs).result = Except.ok outs)
    (hret : outs.length = p.retrieve.length) :
    transferCount (runPipeline p inputs).trace =
      hostInputCount inputs + p.retrieve.length := by
  unfold runPipeline at hok ⊢
  cases hr : (runSteps p.steps (stageInputs inputs).2 0).2.2 with
  | error ie => simp [hr] at hok
  | ok u =>
    simp only [hr] at hok ⊢
    simp only [Except.ok.injEq] at hok
    rw [transferCount_append, transferCount_append, stage_transferCount,
      runSteps_transferCount, transferCount_d2h_map, hok, hret]
    omega

/-- Witness for C1: a 3-step chain over one host-resident input with one
host retrieval performs exactly 1 + 1 = 2 transfers. -/
theorem pipeline_transfer_invariant_witness :
    transferCount (runPipeline
      ({ steps := [Step.unary ({ inDtype := DType.f32, outDtype := DType.f32,
                                 f := fun x => x } : UfuncOp ℚ) 0,
                   Step.unary ({ inDtype := DType.f32, outDtype := DType.f32,
                                 f := fun x => x } : UfuncOp ℚ) 1,
                   Step.unary ({ inDtype := DType.f32, outDtype := DType.f32,
                                 f := fun x => x } : UfuncOp ℚ) 2],
         retrieve := [3] } : Pipeline ℚ)
      [{ loc := Loc.host, dtype := DType.f32, contiguous := true,
         valid := true, data := [1] }]).trace =
      hostInputCount
        ([{ loc := Loc.host, dtype := DType.f32, contiguous := true,
            valid := true, data := [1] }] : List (Buf ℚ)) + 1 :=
  pipeline_transfer_invariant _ _
    [{ loc := Loc.host, dtype := DType.f32, contiguous := true,
       valid := true, data := [1] }] rfl rfl

/-! ### Abort-cleanup lemmas for the pipeline -/

theorem releaseFrom_get? {α : Type} (inputs : List (Buf α)) (env : List (Buf α))
    (j k : Nat) :
    (releaseFrom inputs j env).get? k = (env.get? k).map
      (fun b => if pipelineOwned inputs (j + k) then { b with valid := false } else b) := by
  induction env generalizing j k with
  | nil => simp [releaseFrom]
  | cons b rest ih =>
    cases k with
    | zero => simp [releaseFrom]
    | succ k =>
      have hjk : j + (k + 1) = (j + 1) + k := by omega
      simp only [releaseFrom, List.get?_eq_getElem?, List.getElem?_cons_succ]
      have hrec := ih (j + 1) k
      simp only [List.get?_eq_getElem?] at hrec
      rw [hrec, hjk]

theorem runSteps_env_append {α : Type} (steps : List (Step α)) (env : List (Buf α))
    (idx : Nat) :
    ∃ tail, (runSteps steps env idx).2.1 = env ++ tail := by
  induction steps generalizing env idx with
  | nil => exact ⟨[], by simp [runSteps]⟩
  | cons st rest ih =>
    rcases hex : execStep env st with ⟨es, r⟩
    cases r with
    | ok out =>
      rcases ih (env ++ [out]) (idx + 1) with ⟨tail, htail⟩
      exact ⟨[out] ++ tail, by simp [runSteps, hex, htail]⟩
    | error e2 => exact ⟨[], by simp [runSteps, hex]⟩

theorem runSteps_error_spec {α : Type} (steps : List (Step α)) (env : List (Buf α))
    (idx i : Nat) (e : Err)
    (h : (runSteps steps env idx).2.2 = Except.error (i, e)) :
    ∃ n st, i = idx + n ∧ steps.get? n = some st ∧
      (runSteps (steps.take n) env idx).2.2 = Except.ok () ∧
      (execStep (runSteps (steps.take n) env idx).2.1 st).2 = Except.error e ∧
      (runSteps steps env idx).2.1 = (runSteps (steps.take n) env idx).2.1 := by
  induction steps generalizing env idx with
  | nil => simp [runSteps] at h
  | cons st rest ih =>
    rcases hex : execStep env st with ⟨es, r⟩
    cases r with
    | error e2 =>
      have hh : idx = i ∧ e2 = e := by
        have h2 := h
        simp [runSteps, hex] at h2
        exact h2
      refine ⟨0, st, by omega, rfl, by simp [runSteps], ?_, by simp [runSteps, hex]⟩
      have henv0 : (runSteps ((st :: rest).take 0) env idx).2.1 = env := by
        simp [runSteps]
      rw [henv0, hex, hh.2]
    | ok out =>
      have h2 : (runSteps rest (env ++ [out]) (idx + 1)).2.2 = Except.error (i, e) := by
        have h3 := h
        simp only [runSteps, hex] at h3
        exact h3
      obtain ⟨n, st2, hi, hget, hok2, hfail, henv⟩ := ih (env ++ [out]) (idx + 1) h2
      have hred : ∀ l : List (Step α),
          (runSteps (st :: l) env idx).2 = (runSteps l (env ++ [out]) (idx + 1)).2 := by
        intro l
        simp [runSteps, hex]
      refine ⟨n + 1, st2, by omega, by simpa using hget, ?_, ?_, ?_⟩
      · rw [List.take_succ_cons, hred (rest.take n)]
        exact hok2
      · rw [List.take_succ_cons, hred (rest.take n)]
        exact hfail
      · rw [List.take_succ_cons, hred rest, hred (rest.take n)]
        exact henv

/-! ### C8: failing pipelines abort cleanly -/

/-- C8: when a pipeline step fails, the pipeline reports the failing step
index and error kind (the first `i` steps succeeded and step `i` produced
exactly that error), every internally allocated buffer (staged copy or
intermediate) is released, and every caller-supplied buffer is left
untouched — both the caller's handle list and any caller-owned
device-resident buffer used in place by the working environment. -/
theorem pipeline_abort_cleanup {α : Type} (p : Pipeline α) (inputs : List (Buf α))
    (i : Nat) (e : Err)
    (herr : (runPipeline p inputs).result = Except.error (i, e)) :
    (runPipeline p inputs).callerBufs = inputs ∧
    (∃ st, p.steps.get? i = some st ∧
      (runSteps (p.steps.take i) (stageInputs inputs).2 0).2.2 = Except.ok () ∧
      (execStep (runSteps (p.steps.take i) (stageInputs inputs).2 0).2.1 st).2 =
        Except.error e) ∧
    (∀ j b, (runPipeline p inputs).internalBufs.get? j = some b →
      pipelineOwned inputs j = true → b.valid = false) ∧
    (∀ j, pipelineOwned inputs j = false →
      (runPipeline p inputs).internalBufs.get? j = inputs.get? j) := by
  unfold runPipeline at herr ⊢
  cases hr : (runSteps p.steps (stageInputs inputs).2 0).2.2 with
  | ok u => simp [hr] at herr
  | error ie =>
    simp only [hr] at herr ⊢
    simp only [Except.error.injEq] at herr
    subst herr
    obtain ⟨n, st, hi, hget, hok2, hfail, henv⟩ :=
      runSteps_error_spec p.steps (stageInputs inputs).2 0 i e hr
    have hn : n = i := by omega
    subst hn
    refine ⟨trivial, ⟨st, hget, hok2, hfail⟩, ?_, ?_⟩
    · intro j b hj hown
      simp only [releaseInternals] at hj
      rw [releaseFrom_get?] at hj
      simp only [Nat.zero_add, hown] at hj
      rcases hmap : (runSteps p.steps (stageInputs inputs).2 0).2.1.get? j with _ | c
      · rw [hmap] at hj
        simp at hj
      · rw [hmap] at hj
        have hb := Option.some.inj hj
        rw [← hb]
        simp
    · intro j hown
      have hsrc : ∃ c, inputs.get? j = some c ∧ c.loc = Loc.device := by
        unfold pipelineOwned at hown
        rcases hg : inputs.get? j with _ | c
        · rw [hg] at hown
          simp at hown
        · rw [hg] at hown
          cases hc : c.loc with
          | host => simp [hc] at hown
          | device => exact ⟨c, rfl, hc⟩
      obtain ⟨c, hc, hcdev⟩ := hsrc
      have hjlt : j < inputs.length := by
        rw [List.get?_eq_getElem?] at hc
        exact (List.getElem?_eq_some_iff.mp hc).1
      have hstage : (stageInputs inputs).2.get? j = some c := by
        simp only [stageInputs]
        rw [List.get?_eq_getElem?, List.getElem?_map, ← List.get?_eq_getElem?, hc]
        simp [hcdev]
      obtain ⟨tail, htail⟩ := runSteps_env_append p.steps (stageInputs inputs).2 0
      have henvj : (runSteps p.steps (stageInputs inputs).2 0).2.1.get? j = some c := by
        rw [htail, List.get?_eq_getElem?]
        rw [List.getElem?_append_left (by simpa [stageInputs] using hjlt)]
        rw [← List.get?_eq_getElem?]
        exact hstage
      have hc2 := hc
      rw [List.get?_eq_getElem?] at hc2
      simp only [releaseInternals]
      rw [releaseFrom_get?, henvj]
      simp only [Nat.zero_add, hown]
      simp [hc2]

/-- Witness for C8: a one-step pipeline whose single step feeds a
`float64` buffer to a `float32` op aborts at step 0 with `DTypeMismatch`,
releasing its staged copy and leaving the caller's buffer list unchanged. -/
theorem pipeline_abort_cleanup_witness :
    (runPipeline
        ({ steps := [Step.unary ({ inDtype := DType.f32, outDtype := DType.f32,
                                   f := fun x => x } : UfuncOp ℚ) 0],
           retrieve := [] } : Pipeline ℚ)
        [{ loc := Loc.host, dtype := DType.f64, contiguous := true,
           valid := true, data := [1] }]).callerBufs =
      [{ loc := Loc.host, dtype := DType.f64, contiguous := true,
         valid := true, data := [1] }] ∧
    (∃ st, ([Step.unary ({ inDtype := DType.f32, outDtype := DType.f32,
                           f := fun x => x } : UfuncOp ℚ) 0]).get? 0 = some st ∧
      (runSteps (([Step.unary ({ inDtype := DType.f32, outDtype := DType.f32,
                                 f := fun x => x } : UfuncOp ℚ) 0]).take 0)
        (stageInputs [{ loc := Loc.host, dtype := DType.f64, contiguous := true,
                        valid := true, data := [(1 : ℚ)] }]).2 0).2.2 = Except.ok () ∧
      (execStep (runSteps (([Step.unary ({ inDtype := DType.f32, outDtype := DType.f32,
                                           f := fun x => x } : UfuncOp ℚ) 0]).take 0)
        (stageInputs [{ loc := Loc.host, dtype := DType.f64, contiguous := true,
                        valid := true, data := [(1 : ℚ)] }]).2 0).2.1 st).2 =
        Except.error Err.DTypeMismatch) :=
  by
  have H := pipeline_abort_cleanup
    ({ steps := [Step.unary ({ inDtype := DType.f32, outDtype := DType.f32,
                               f := fun x => x } : UfuncOp ℚ) 0],
       retrieve := [] } : Pipeline ℚ)
    [{ loc := Loc.host, dtype := DType.f64, contiguous := true,
       valid := true, data := [1] }] 0 Err.DTypeMismatch rfl
  exact ⟨H.1, H.2.1⟩

/-! ### C9: the three normalize/weigh/activate variants agree -/

theorem activate_eq_map (vs : List ℝ) :
    activate vs = vs.map
      (fun x => (Real.exp x - Real.exp (-x)) / (Real.exp x + Real.exp (-x))) := by
  induction vs with
  | nil => rfl
  | cons v vs ih =>
    simp only [activate] at ih
    simp only [activate, List.map_cons, List.zipWith_cons_cons, List.cons.injEq]
    exact ⟨by trivial, ih⟩

/-- C9: on any same-length inputs, the naive chained GPU pipeline and the
transfer-minimized device-array pipeline both compute exactly the values
of the plain CPU composition `activate(weigh(normalize(greyscales),
weights))` — the transfer optimization changes only data movement, never
the computed values. -/
theorem pipeline_variants_agree (gs ws : List ℝ) (hlen : gs.length = ws.length) :
    naiveGpuPipeline gs ws = Except.ok (activate (weigh (normalize gs) ws)) ∧
    minimizedResult gs ws = Except.ok [activate (weigh (normalize gs) ws)] := by
  constructor
  · simp [naiveGpuPipeline, applyUfunc1, applyUfunc2, hostArr, gpu_normalize,
      gpu_weigh, gpu_activate, hlen, activate_eq_map, weigh, normalize]
  · simp [minimizedResult, runPipeline, deviceChain, stageInputs, runSteps,
      execStep, applyUfunc1, applyUfunc2, hostArr, gpu_normalize, gpu_weigh,
      gpu_activate, hlen, activate_eq_map, weigh, normalize, Except.map]

/-- Witness for C9: the agreement evaluated on the concrete inputs
greyscales = [255], weights = [2]. -/
theorem pipeline_variants_agree_witness :
    naiveGpuPipeline [255] [2] =
      Except.ok (activate (weigh (normalize [255]) [2])) ∧
    minimizedResult [255] [2] =
      Except.ok [activate (weigh (normalize [255]) [2])] :=
  pipeline_variants_agree [255] [2] rfl

end NumbaCuda
